import Mathlib

/-!
Shallow embedding of src/mogptk/bnse.py (the BNSE power-spectral-density
estimator).  The data-plumbing part of the function (median centering,
range, sample spacing, default maximum frequency, parameter
initialization, frequency grid) is embedded over the rationals, which
model the floating-point input arrays exactly on the inputs used here.
The closed-form frequency kernels are embedded over the reals.
A division whose IEEE result would be non-finite (zero denominator) is
modelled by an Option value that is none in that case.
-/

open scoped BigOperators

namespace Mogptk

/-- Sorted copy of a list, modelling numpy sorting of a float array. -/
def npSort (l : List ℚ) : List ℚ := l.insertionSort (· ≤ ·)

/-- Median of a list, as np.median computes it: sort, take the middle
element for odd length, the mean of the two middle elements for even
length. -/
def npMedian (l : List ℚ) : ℚ :=
  let s := npSort l
  if l.length % 2 = 1 then s.getD (l.length / 2) 0
  else (s.getD (l.length / 2 - 1) 0 + s.getD (l.length / 2) 0) / 2

/-- The observation inputs after line 6 of bnse.py, x -= np.median(x):
every entry has the median subtracted.  Because the subtraction is
performed in place on the caller's array, this is also the state of the
caller's x after the call. -/
def centered (x : List ℚ) : List ℚ := x.map (fun t => t - npMedian x)

/-- Maximum entry of a list (np.max); 0 on the empty list, on which
np.max would error. -/
def listMax : List ℚ → ℚ
  | [] => 0
  | h :: t => t.foldl max h

/-- Minimum entry of a list (np.min); 0 on the empty list. -/
def listMin : List ℚ → ℚ
  | [] => 0
  | h :: t => t.foldl min h

/-- Line 8 of bnse.py: x_range = np.max(x) - np.min(x), evaluated on the
already centered x. -/
def x_range (x : List ℚ) : ℚ := listMax (centered x) - listMin (centered x)

/-- Line 9 of bnse.py: x_dist = x_range / len(x). -/
def x_dist (x : List ℚ) : ℚ := x_range x / (x.length : ℚ)

/-- Division as performed on IEEE floats: a zero denominator yields a
non-finite value, modelled as none; otherwise the exact quotient. -/
def npDiv (a b : ℚ) : Option ℚ := if b = 0 then none else some (a / b)

/-- Lines 10-11 of bnse.py: when the caller omits max_freq it defaults
to 0.5 / x_dist. -/
def defaultMaxFreq (x : List ℚ) : Option ℚ := npDiv (1/2) (x_dist x)

/-- Modelled from the spec: the median sample spacing of the centered x,
that is the median of the gaps between consecutive sorted sample
locations.  This definition follows the words of the spec (sections 4.2
and 6); it is the quantity the spec claims the code uses, to be compared
with x_dist as the code computes it. -/
def medianSampleSpacing (x : List ℚ) : ℚ :=
  let s := npSort (centered x)
  npMedian ((s.zip s.tail).map (fun p => p.2 - p.1))

/-- Line 26 of bnse.py: variance = 0.25 / np.pi**2 / x_dist**2, a real
number; none models the non-finite IEEE result when x_dist = 0. -/
noncomputable def varianceInitF (x : List ℚ) : Option ℝ :=
  if x_dist x = 0 then none
  else some (0.25 / Real.pi ^ 2 / ((x_dist x : ℚ) : ℝ) ^ 2)

/-- Line 40 of bnse.py: alpha = 2.0 / x_range**2; none models the
non-finite IEEE result when x_range = 0. -/
noncomputable def alphaF (x : List ℚ) : Option ℝ :=
  if x_range x = 0 then none
  else some (2.0 / ((x_range x : ℚ) : ℝ) ^ 2)

/-- Mean of a list of rationals (y.sum / len(y)). -/
def meanQ (y : List ℚ) : ℚ := y.sum / (y.length : ℚ)

/-- Unbiased sample variance as torch.Tensor.std computes it before the
square root: sum of squared deviations divided by N - 1. -/
def unbiasedVarQ (y : List ℚ) : ℚ :=
  (y.map (fun t => (t - meanQ y) ^ 2)).sum / ((y.length - 1 : ℕ) : ℚ)

/-- Standard deviation of the observations, modelling y.std() of line 24
of bnse.py (unbiased, Bessel-corrected). -/
noncomputable def torchStd (y : List ℚ) : ℝ := Real.sqrt ((unbiasedVarQ y : ℚ) : ℝ)

/-- The four initial parameter values assigned on lines 24-31 of
bnse.py, before training. -/
structure InitParams where
  sigma : ℝ
  mean : ℝ
  variance : Option ℝ
  noise : ℝ

/-- Lines 23-31 of bnse.py: sigma = y.std(), mean = 0.01,
variance = 0.25 / np.pi**2 / x_dist**2, noise = y.std() / 10.0. -/
noncomputable def bnseInit (x y : List ℚ) : InitParams :=
  ⟨torchStd y, 0.01, varianceInitF x, torchStd y / 10.0⟩

/-- Error kinds named by the spec's error-handling design (section 7). -/
inductive BNSEError where
  | precondition
  | numerical
deriving DecidableEq

/-- The state computed by the entry phase of BNSE (lines 5-11 of
bnse.py) before any model is built. -/
structure BNSESetup where
  x : List ℚ
  x_range : ℚ
  x_dist : ℚ
  max_freq : Option ℚ
deriving DecidableEq

/-- Lines 5-11 of bnse.py: center x by its median, compute the range,
the spacing x_range / len(x), and default max_freq to 0.5 / x_dist when
the caller omitted it.  The source performs no validation of x, y or n
in this phase (there is no raise statement and no length or sign check),
so the embedding never produces an error value. -/
def BNSE_setup (x y : List ℚ) (max_freq : Option ℚ) (n : ℕ) :
    Except BNSEError BNSESetup :=
  Except.ok ⟨centered x, x_range x, x_dist x,
    match max_freq with
    | none => defaultMaxFreq x
    | some F => some F⟩

/-- The caller's x array after BNSE returns: line 6 of bnse.py subtracts
the median in place on the caller's array. -/
def x_after (x : List ℚ) : List ℚ := centered x

/-- The caller's y array after BNSE returns: y is only read (line 18
rebinds a local name to a fresh tensor), never written. -/
def y_after (y : List ℚ) : List ℚ := y

/-- Line 41 of bnse.py: torch.linspace(0.0, max_freq, n), the n evenly
spaced grid frequencies from 0 to max_freq inclusive. -/
def linspace (F : ℚ) (n : ℕ) : List ℚ :=
  (List.range n).map (fun (i : ℕ) => F * (i : ℚ) / ((n : ℚ) - 1))

/-- The grid properties claimed for the output frequencies: length M,
strictly increasing, first entry 0, last entry F, constant spacing
F / (M - 1). -/
def LinspaceSpec (F : ℚ) (M : ℕ) : Prop :=
  (linspace F M).length = M ∧
  (∀ i j (hi : i < (linspace F M).length) (hj : j < (linspace F M).length),
    i < j → (linspace F M).get ⟨i, hi⟩ < (linspace F M).get ⟨j, hj⟩) ∧
  (linspace F M).head? = some 0 ∧
  (∀ h : M - 1 < (linspace F M).length, (linspace F M).get ⟨M - 1, h⟩ = F) ∧
  (∀ i (h1 : i + 1 < (linspace F M).length) (h2 : i < (linspace F M).length),
    (linspace F M).get ⟨i + 1, h1⟩ - (linspace F M).get ⟨i, h2⟩ = F / ((M : ℚ) - 1))

/-- Modelled from the spec: the squared-distance primitive of the GP
library (gpr.Kernel.squared_distance, not under src); for
one-dimensional inputs it is the squared difference of the two points
(spec section 2, LinearAlgebraOps). -/
noncomputable def squared_distance (a b : ℝ) : ℝ := (a - b) ^ 2

/-- Modelled from the spec: the pairwise-average primitive of the GP
library (gpr.Kernel.average, not under src); for one-dimensional inputs
it is the midpoint of the two points (spec section 2,
LinearAlgebraOps). -/
noncomputable def average (a b : ℝ) : ℝ := (a + b) / 2

/-- Lines 43-53 of bnse.py: the closed-form frequency-frequency kernel
kernel_ff, for one input dimension (D = 1, so variance.prod() is the
variance itself and the final sum over dimensions has a single term).
The coefficient -2.0 * pi * 2 of lines 51-52 is kept verbatim from the
source (the source marks it with a TODO). -/
noncomputable def kernel_ff (f1 f2 sigma mean variance alpha : ℝ) : ℝ :=
  let const := 0.5 * Real.pi * sigma ^ 2 /
    Real.sqrt (alpha ^ 2 + 4.0 * Real.pi ^ 2 * alpha * variance)
  let exp1 := -0.5 * Real.pi ^ 2 / alpha * squared_distance f1 f2
  let exp2a := -2.0 * Real.pi * 2 / (alpha + 4.0 * Real.pi ^ 2 * variance) *
    (average f1 f2 - mean) ^ 2
  let exp2b := -2.0 * Real.pi * 2 / (alpha + 4.0 * Real.pi ^ 2 * variance) *
    (average f1 f2 + mean) ^ 2
  const * (Real.exp (exp1 + exp2a) + Real.exp (exp1 + exp2b))

/-- Line 79 of bnse.py: Kff = kernel_ff(w, w, ...), the kernel on the
frequency grid against itself. -/
noncomputable def Kff {M : ℕ} (w : Fin M → ℝ) (sigma mean variance alpha : ℝ) :
    Fin M → Fin M → ℝ :=
  fun i j => kernel_ff (w i) (w j) sigma mean variance alpha

/-- Line 80 of bnse.py: Pff = kernel_ff(w, -w, ...), the kernel on the
grid against the negated grid. -/
noncomputable def Pff {M : ℕ} (w : Fin M → ℝ) (sigma mean variance alpha : ℝ) :
    Fin M → Fin M → ℝ :=
  fun i j => kernel_ff (w i) (-(w j)) sigma mean variance alpha

/-- Line 81 of bnse.py: Kff_real = 0.5 * (Kff + Pff). -/
noncomputable def Kff_real {M : ℕ} (w : Fin M → ℝ) (sigma mean variance alpha : ℝ) :
    Fin M → Fin M → ℝ :=
  fun i j => 0.5 * (Kff w sigma mean variance alpha i j +
    Pff w sigma mean variance alpha i j)

/-- Line 82 of bnse.py: Kff_imag = 0.5 * (Kff - Pff). -/
noncomputable def Kff_imag {M : ℕ} (w : Fin M → ℝ) (sigma mean variance alpha : ℝ) :
    Fin M → Fin M → ℝ :=
  fun i j => 0.5 * (Kff w sigma mean variance alpha i j -
    Pff w sigma mean variance alpha i j)

/-- Line 90 of bnse.py: mu_real = Ktf_real.T.mm(a), the posterior mean
of the real part at each grid frequency. -/
noncomputable def mu_real {N M : ℕ} (Ktf_real : Fin N → Fin M → ℝ) (a : Fin N → ℝ)
    (k : Fin M) : ℝ :=
  ∑ i, Ktf_real i k * a i

/-- Line 91 of bnse.py: mu_imag = Ktf_imag.T.mm(a). -/
noncomputable def mu_imag {N M : ℕ} (Ktf_imag : Fin N → Fin M → ℝ) (a : Fin N → ℝ)
    (k : Fin M) : ℝ :=
  ∑ i, Ktf_imag i k * a i

/-- Entry (k, l) of b.T.mm(b) for an N-by-M matrix b. -/
noncomputable def gram {N M : ℕ} (b : Fin N → Fin M → ℝ) (k l : Fin M) : ℝ :=
  ∑ i, b i k * b i l

/-- Line 92 of bnse.py: var_real = Kff_real - b.T.mm(b), where b is the
forward-substitution solve of line 87. -/
noncomputable def var_real {N M : ℕ} (Kff_real : Fin M → Fin M → ℝ)
    (b : Fin N → Fin M → ℝ) (k l : Fin M) : ℝ :=
  Kff_real k l - gram b k l

/-- Line 93 of bnse.py: var_imag = Kff_imag - c.T.mm(c), where c is the
forward-substitution solve of line 88.  Computed by the source but
absent from the final PSD combination of line 95. -/
noncomputable def var_imag {N M : ℕ} (Kff_imag : Fin M → Fin M → ℝ)
    (c : Fin N → Fin M → ℝ) (k l : Fin M) : ℝ :=
  Kff_imag k l - gram c k l

/-- Line 95 of bnse.py: psd = mu_real**2 + mu_imag**2 +
(var_real + var_real).diagonal().  Only var_real enters; the source
marks the omission of var_imag with a TODO question. -/
noncomputable def psd {N M : ℕ} (Kff_real : Fin M → Fin M → ℝ)
    (Ktf_real Ktf_imag : Fin N → Fin M → ℝ) (a : Fin N → ℝ)
    (b : Fin N → Fin M → ℝ) (k : Fin M) : ℝ :=
  (mu_real Ktf_real a k) ^ 2 + (mu_imag Ktf_imag a k) ^ 2 +
    (var_real Kff_real b k k + var_real Kff_real b k k)

/-- The initialization equalities of the amended claim C5: sigma is the
Bessel-corrected standard deviation of y, mean is 0.01, variance is
0.25 / (pi^2 dx^2) with dx the centered range divided by the number of
samples, and noise is sigma / 10. -/
noncomputable def InitSpec (x y : List ℚ) : Prop :=
  (bnseInit x y).sigma =
    Real.sqrt ((((y.map (fun t => (t - y.sum / (y.length : ℚ)) ^ 2)).sum /
      ((y.length - 1 : ℕ) : ℚ) : ℚ) : ℝ)) ∧
  (bnseInit x y).mean = 0.01 ∧
  (bnseInit x y).variance =
    some (0.25 / Real.pi ^ 2 / (((x_range x / (x.length : ℚ)) : ℚ) : ℝ) ^ 2) ∧
  (bnseInit x y).noise = (bnseInit x y).sigma / 10

/-- C1: the PSD value returned at frequency k equals
mu_real(k)^2 + mu_imag(k)^2 + 2 * var_real(k), where var_real is the
diagonal of Kff_real minus the Gram matrix of the solve result b; the
imaginary-part variance does not enter the final combination. -/
theorem psd_final_combination {N M : ℕ} (Kff_real : Fin M → Fin M → ℝ)
    (Ktf_real Ktf_imag : Fin N → Fin M → ℝ) (a : Fin N → ℝ)
    (b : Fin N → Fin M → ℝ) (k : Fin M) :
    psd Kff_real Ktf_real Ktf_imag a b k =
      (mu_real Ktf_real a k) ^ 2 + (mu_imag Ktf_imag a k) ^ 2 +
        2 * (Kff_real k k - ∑ i, b i k * b i k) := by
  unfold psd var_real gram
  ring

/-- C3: the pipeline values Kff_real and Kff_imag on the grid are
exactly the half-sum and half-difference of the closed-form
frequency-frequency kernel evaluated at (f, fp) and at (f, -fp). -/
theorem Kff_decomposition {M : ℕ} (w : Fin M → ℝ)
    (sigma mean variance alpha : ℝ) (i j : Fin M) :
    Kff_real w sigma mean variance alpha i j =
      0.5 * (kernel_ff (w i) (w j) sigma mean variance alpha +
        kernel_ff (w i) (-(w j)) sigma mean variance alpha) ∧
    Kff_imag w sigma mean variance alpha i j =
      0.5 * (kernel_ff (w i) (w j) sigma mean variance alpha -
        kernel_ff (w i) (-(w j)) sigma mean variance alpha) :=
  ⟨rfl, rfl⟩

/-- Every value of the closed-form frequency-frequency kernel is
non-negative: it is a non-negative constant times a sum of
exponentials. -/
theorem kernel_ff_nonneg (f1 f2 sigma mean variance alpha : ℝ) :
    0 ≤ kernel_ff f1 f2 sigma mean variance alpha := by
  simp only [kernel_ff]
  positivity

/-- C4: each diagonal entry of the decomposed real-part kernel on the
grid is non-negative, for positive sigma, variance and alpha. -/
theorem Kff_real_diag_nonneg {M : ℕ} (w : Fin M → ℝ)
    (sigma mean variance alpha : ℝ) (hs : 0 < sigma) (hv : 0 < variance)
    (ha : 0 < alpha) (k : Fin M) :
    0 ≤ Kff_real w sigma mean variance alpha k k := by
  have h1 := kernel_ff_nonneg (w k) (w k) sigma mean variance alpha
  have h2 := kernel_ff_nonneg (w k) (-(w k)) sigma mean variance alpha
  unfold Kff_real Kff Pff
  linarith

/-- Witness for C4 at the one-point grid holding the frequency 0, with
sigma = variance = alpha = 1 and mean = 0. -/
theorem Kff_real_diag_nonneg_witness :
    (0 : ℝ) < 1 ∧ 0 ≤ Kff_real (fun _ : Fin 1 => 0) 1 0 1 1 0 0 :=
  ⟨by norm_num, Kff_real_diag_nonneg (fun _ : Fin 1 => 0) 1 0 1 1
    (by norm_num) (by norm_num) (by norm_num) 0⟩

/-- Concrete evaluation: the median sample spacing of [0, 1, 2] is 1. -/
theorem medianSampleSpacing_012 : medianSampleSpacing [0, 1, 2] = 1 := by
  norm_num [medianSampleSpacing, centered, npMedian, npSort,
    List.insertionSort, List.orderedInsert]

/-- Concrete evaluation: x_dist of [0, 1, 2] is 2/3 (range 2 over 3
points), not the sample spacing 1. -/
theorem x_dist_012 : x_dist [0, 1, 2] = 2 / 3 := by
  norm_num [x_dist, x_range, centered, npMedian, npSort,
    List.insertionSort, List.orderedInsert, listMax, listMin]

/-- Concrete evaluation: x_range of [0, 1, 2] is 2. -/
theorem x_range_012 : x_range [0, 1, 2] = 2 := by
  norm_num [x_range, centered, npMedian, npSort,
    List.insertionSort, List.orderedInsert, listMax, listMin]

/-- C5 counterexample: for x = [0, 1, 2] the median sample spacing is 1,
but the code computes the initial variance from x_dist = 2/3, so the
initial variance differs from 0.25 / (pi^2 * medianSampleSpacing^2). -/
theorem init_variance_not_median_spacing :
    medianSampleSpacing [0, 1, 2] = 1 ∧
    x_dist [0, 1, 2] = 2 / 3 ∧
    varianceInitF [0, 1, 2] ≠
      some (0.25 / Real.pi ^ 2 /
        ((medianSampleSpacing [0, 1, 2] : ℚ) : ℝ) ^ 2) := by
  refine ⟨medianSampleSpacing_012, x_dist_012, ?_⟩
  unfold varianceInitF
  rw [x_dist_012, medianSampleSpacing_012, if_neg (by norm_num : (2 / 3 : ℚ) ≠ 0)]
  simp only [ne_eq, Option.some.injEq]
  push_cast
  intro h
  have hpi2 : (0 : ℝ) < Real.pi ^ 2 := by positivity
  field_simp at h
  nlinarith

/-- C5 amended: before training the parameters are initialized as
sigma = std(y), mean = 0.01, variance = 0.25 / (pi^2 dx^2) where dx is
the centered range divided by the number of samples, and
noise = std(y) / 10. -/
theorem init_params_spec (x y : List ℚ) (hx : x_dist x ≠ 0) :
    InitSpec x y := by
  refine ⟨rfl, rfl, ?_, ?_⟩
  · show varianceInitF x = _
    rw [varianceInitF, if_neg hx]
    unfold x_dist
    rfl
  · show torchStd y / 10.0 = torchStd y / 10
    norm_num

/-- Witness for the amended C5 at x = [0, 1, 2], y = [1, 2, 4]. -/
theorem init_params_spec_witness :
    x_dist [0, 1, 2] ≠ 0 ∧ InitSpec [0, 1, 2] [1, 2, 4] :=
  ⟨by rw [x_dist_012]; norm_num,
    init_params_spec [0, 1, 2] [1, 2, 4] (by rw [x_dist_012]; norm_num)⟩

/-- C6 counterexample: for x = [0, 1, 2] the default maximum frequency
computed by the code is 3/4, while half the inverse of the median
sample spacing is 1/2. -/
theorem default_max_freq_not_median :
    defaultMaxFreq [0, 1, 2] = some (3 / 4) ∧
    (1 / 2) / medianSampleSpacing [0, 1, 2] = 1 / 2 ∧
    (3 / 4 : ℚ) ≠ 1 / 2 := by
  refine ⟨?_, ?_, by norm_num⟩
  · unfold defaultMaxFreq npDiv
    rw [x_dist_012]
    norm_num
  · rw [medianSampleSpacing_012]
    norm_num

/-- C6 amended: when the caller omits max_frequency, the maximum
frequency of the grid is 0.5 / (x_range / len(x)), that is
len(x) / (2 * x_range). -/
theorem default_max_freq_spec (x : List ℚ) (hx : x_dist x ≠ 0) :
    defaultMaxFreq x = some ((x.length : ℚ) / (2 * x_range x)) := by
  obtain ⟨hr, hl⟩ := div_ne_zero_iff.mp hx
  unfold defaultMaxFreq npDiv
  rw [if_neg hx]
  congr 1
  unfold x_dist
  field_simp

/-- Witness for the amended C6 at x = [0, 1, 2]. -/
theorem default_max_freq_spec_witness :
    x_dist [0, 1, 2] ≠ 0 ∧
    defaultMaxFreq [0, 1, 2] =
      some ((([0, 1, 2] : List ℚ).length : ℚ) / (2 * x_range [0, 1, 2])) :=
  ⟨by rw [x_dist_012]; norm_num,
    default_max_freq_spec [0, 1, 2] (by rw [x_dist_012]; norm_num)⟩

/-- Entry i of the frequency grid is F * i / (n - 1). -/
theorem linspace_get (F : ℚ) (n : ℕ) (i : ℕ)
    (h : i < (linspace F n).length) :
    (linspace F n).get ⟨i, h⟩ = F * i / ((n : ℚ) - 1) := by
  simp only [linspace, List.get_eq_getElem, List.getElem_map, List.getElem_range]

/-- C7: for grid size M ≥ 2 and positive maximum frequency F, the
frequency list has exactly M entries, is strictly increasing, starts at
0, ends at F, and has constant spacing F / (M - 1). -/
theorem linspace_grid (F : ℚ) (M : ℕ) (hM : 2 ≤ M) (hF : 0 < F) :
    LinspaceSpec F M := by
  have hlen : (linspace F M).length = M := by
    simp only [linspace, List.length_map, List.length_range]
  have hM1 : (0 : ℚ) < (M : ℚ) - 1 := by
    have h2 : (2 : ℚ) ≤ (M : ℚ) := by exact_mod_cast hM
    linarith
  refine ⟨hlen, ?_, ?_, ?_, ?_⟩
  · intro i j hi hj hij
    rw [linspace_get, linspace_get]
    have hcast : (i : ℚ) < (j : ℚ) := by exact_mod_cast hij
    have hnum : F * (i : ℚ) < F * (j : ℚ) := mul_lt_mul_of_pos_left hcast hF
    exact div_lt_div_of_pos_right hnum hM1
  · obtain ⟨k, rfl⟩ : ∃ k, M = k + 1 := ⟨M - 1, by omega⟩
    rw [linspace, List.range_succ_eq_map]
    simp
  · intro h
    rw [linspace_get]
    have hc : ((M - 1 : ℕ) : ℚ) = (M : ℚ) - 1 := by
      have h1 : 1 ≤ M := by omega
      push_cast [h1]
      ring
    rw [hc, mul_div_assoc, div_self (ne_of_gt hM1), mul_one]
  · intro i h1 h2
    rw [linspace_get, linspace_get]
    push_cast
    rw [div_sub_div_same]
    congr 1
    ring

/-- Witness for C7 with maximum frequency 1 and grid size 3. -/
theorem linspace_grid_witness : 2 ≤ 3 ∧ (0 : ℚ) < 1 ∧ LinspaceSpec 1 3 :=
  ⟨by norm_num, by norm_num, linspace_grid 1 3 (by norm_num) (by norm_num)⟩

/-- C8 counterexample: the single-point input x = [0] has fewer than 2
observation points, yet the entry phase of BNSE is not rejected with a
PreconditionError: it completes and returns the computed setup (with a
non-finite default maximum frequency). -/
theorem setup_no_precondition_check :
    ([0] : List ℚ).length < 2 ∧
    BNSE_setup [0] [1] none 1000 = Except.ok ⟨[0], 0, 0, none⟩ := by
  constructor
  · norm_num
  · unfold BNSE_setup
    norm_num [centered, npMedian, npSort, List.insertionSort,
      List.orderedInsert, x_range, x_dist, listMax, listMin,
      defaultMaxFreq, npDiv]

/-- C8 amended: the entry phase of BNSE performs no input validation at
all: every call, whatever the lengths of x and y or the grid size,
proceeds past it without a PreconditionError. -/
theorem setup_always_ok (x y : List ℚ) (max_freq : Option ℚ) (n : ℕ) :
    ∃ s, BNSE_setup x y max_freq n = Except.ok s :=
  ⟨_, rfl⟩

/-- C9 counterexample: for the caller's array x = [0, 1, 3] (median 1),
the in-place median centering of line 6 leaves the caller holding
[-1, 0, 2], not the original data. -/
theorem x_mutated_counterexample :
    x_after [0, 1, 3] = [-1, 0, 2] ∧ ([-1, 0, 2] : List ℚ) ≠ [0, 1, 3] := by
  constructor
  · norm_num [x_after, centered, npMedian, npSort, List.insertionSort,
      List.orderedInsert]
  · simp

/-- C9 amended: the call mutates the caller's x in place — whenever the
median of x is nonzero the caller's array changes — while y is left
unchanged. -/
theorem x_mutated_y_unchanged (x y : List ℚ) (hx : x ≠ [])
    (hm : npMedian x ≠ 0) :
    x_after x ≠ x ∧ y_after y = y := by
  refine ⟨?_, rfl⟩
  cases x with
  | nil => exact absurd rfl hx
  | cons h t =>
    intro he
    have hh := congrArg List.head? he
    simp only [x_after, centered, List.map_cons, List.head?_cons,
      Option.some.injEq] at hh
    exact hm (by linarith)

/-- Witness for the amended C9 at x = [0, 1, 3], y = [7]. -/
theorem x_mutated_y_unchanged_witness :
    ([0, 1, 3] : List ℚ) ≠ [] ∧ npMedian [0, 1, 3] ≠ 0 ∧
      (x_after [0, 1, 3] ≠ [0, 1, 3] ∧ y_after [7] = [7]) :=
  ⟨by simp,
    by norm_num [npMedian, npSort, List.insertionSort, List.orderedInsert],
    x_mutated_y_unchanged [0, 1, 3] [7] (by simp)
      (by norm_num [npMedian, npSort, List.insertionSort, List.orderedInsert])⟩

/-- Folding max over a list whose entries all equal d, starting from d,
yields d. -/
theorem foldl_max_const (d : ℚ) :
    ∀ (l : List ℚ), (∀ t ∈ l, t = d) → ∀ a, a = d → l.foldl max a = d := by
  intro l
  induction l with
  | nil => intro _ a ha; simpa using ha
  | cons h t ih =>
    intro hall a ha
    have hh : h = d := hall h (by simp)
    refine ih (fun u hu => hall u (by simp [hu])) (max a h) ?_
    rw [ha, hh, max_self]

/-- Folding min over a list whose entries all equal d, starting from d,
yields d. -/
theorem foldl_min_const (d : ℚ) :
    ∀ (l : List ℚ), (∀ t ∈ l, t = d) → ∀ a, a = d → l.foldl min a = d := by
  intro l
  induction l with
  | nil => intro _ a ha; simpa using ha
  | cons h t ih =>
    intro hall a ha
    have hh : h = d := hall h (by simp)
    refine ih (fun u hu => hall u (by simp [hu])) (min a h) ?_
    rw [ha, hh, min_self]

/-- The range of a nonempty list whose entries are all equal is zero. -/
theorem range_allEq_zero (x : List ℚ) (c : ℚ) (hne : x ≠ [])
    (hall : ∀ t ∈ x, t = c) : x_range x = 0 := by
  have hcon : ∀ u ∈ centered x, u = c - npMedian x := by
    intro u hu
    simp only [centered, List.mem_map] at hu
    obtain ⟨t, ht, rfl⟩ := hu
    rw [hall t ht]
  unfold x_range
  cases hcen : centered x with
  | nil =>
    exfalso
    apply hne
    cases x with
    | nil => rfl
    | cons h t => simp [centered] at hcen
  | cons h t =>
    have hh : h = c - npMedian x := hcon h (by rw [hcen]; simp)
    have ht : ∀ u ∈ t, u = c - npMedian x := fun u hu =>
      hcon u (by rw [hcen]; simp [hu])
    show List.foldl max h t - List.foldl min h t = 0
    rw [foldl_max_const (c - npMedian x) t ht h hh,
      foldl_min_const (c - npMedian x) t ht h hh]
    ring

/-- C10: when all observation inputs are equal (a single observation or
fully duplicated inputs), the centered range and x_dist are zero, so
the default maximum frequency 0.5/x_dist, the initial kernel variance
0.25/(pi^2 x_dist^2) and the smoothing scale alpha = 2/x_range^2 each
divide by zero and come out non-finite (none in this model); no error
is raised before these values are used. -/
theorem degenerate_inputs_nonfinite (x : List ℚ) (c : ℚ) (hne : x ≠ [])
    (hall : ∀ t ∈ x, t = c) :
    x_range x = 0 ∧ defaultMaxFreq x = none ∧ varianceInitF x = none ∧
      alphaF x = none := by
  have hr : x_range x = 0 := range_allEq_zero x c hne hall
  have hd : x_dist x = 0 := by rw [x_dist, hr, zero_div]
  exact ⟨hr, by simp [defaultMaxFreq, npDiv, hd], by simp [varianceInitF, hd],
    by simp [alphaF, hr]⟩

/-- Witness for C10 at the fully duplicated input x = [2, 2, 2]. -/
theorem degenerate_inputs_nonfinite_witness :
    ([2, 2, 2] : List ℚ) ≠ [] ∧ (∀ t ∈ ([2, 2, 2] : List ℚ), t = 2) ∧
      (x_range [2, 2, 2] = 0 ∧ defaultMaxFreq [2, 2, 2] = none ∧
        varianceInitF [2, 2, 2] = none ∧ alphaF [2, 2, 2] = none) :=
  ⟨by simp, by simp,
    degenerate_inputs_nonfinite [2, 2, 2] 2 (by simp) (by simp)⟩

end Mogptk
